import Mathlib

/-!
Shallow embedding of `haystack_integrations/document_stores/vespa/filters.py`
(the Vespa YQL filter compiler) and verification of its specification claims.

Python dynamic values are modelled by the inductive type `PyVal`.  Python
floats are abstracted to the three observations the source code makes of a
float value — `math.isinf`, `math.isnan`, truthiness — together with the text
`str()` produces for it; the compiler never computes with a float, it only
tests and prints it.  Python exceptions that are not `FilterError`
(`TypeError` from `in` / indexing on unsupported types, `AttributeError` from
`.startswith` on a non-string) are modelled explicitly, so that the
error-channel claims can be settled faithfully.
-/

/-- Abstraction of a Python `float`: the compiler only ever asks whether it is
infinite (`math.isinf`), not-a-number (`math.isnan`), whether it is falsy
(`== 0.0`), and what `str()` prints for it. -/
structure PyFloat where
  isInf : Bool
  isNan : Bool
  isZero : Bool
  repr : String
deriving DecidableEq, Repr

/-- A Python value as the filter compiler can receive it: `None`, `bool`,
`int`, `float`, `str`, `list`, or `dict` with string keys. -/
inductive PyVal where
  | none : PyVal
  | bool : Bool → PyVal
  | int : Int → PyVal
  | float : PyFloat → PyVal
  | str : String → PyVal
  | list : List PyVal → PyVal
  | dict : List (String × PyVal) → PyVal

/-- Python exceptions other than `FilterError` that the source can raise. -/
inductive PyExc where
  | typeError : PyExc
  | attributeError : PyExc
  | keyError : PyExc
deriving DecidableEq, Repr

/-- The error channel of the embedded compiler: either a `FilterError` with
its message, or an ordinary Python exception. -/
inductive Err where
  | filter : String → Err
  | exc : PyExc → Err
deriving DecidableEq, Repr

instance {ε α : Type} [DecidableEq ε] [DecidableEq α] : DecidableEq (Except ε α) := fun a b =>
  match a, b with
  | .error e, .error f =>
    if h : e = f then isTrue (by rw [h]) else isFalse (by simp [h])
  | .ok x, .ok y =>
    if h : x = y then isTrue (by rw [h]) else isFalse (by simp [h])
  | .error _, .ok _ => isFalse (by simp)
  | .ok _, .error _ => isFalse (by simp)

/-- First-match lookup in a Python dict modelled as an association list. -/
def dictGet : List (String × PyVal) → String → Option PyVal
  | [], _ => Option.none
  | (k, v) :: kvs, key => if k = key then some v else dictGet kvs key

/-- Python's `key in v` for a string `key`: dict key membership, substring
test on a string, `==`-membership on a list, `TypeError` otherwise. -/
def pyIn (key : String) (v : PyVal) : Except Err Bool :=
  match v with
  | .dict kvs => .ok (dictGet kvs key).isSome
  | .str s => .ok (key = "" || (s.splitOn key).length ≥ 2)
  | .list xs => .ok (xs.any fun x => match x with | .str s => s = key | _ => false)
  | _ => .error (.exc .typeError)

/-- Python's `v[key]` for a string `key`: dict indexing, `KeyError` when the
key is absent, `TypeError` on any non-dict. -/
def pyGet (v : PyVal) (key : String) : Except Err PyVal :=
  match v with
  | .dict kvs =>
    match dictGet kvs key with
    | some x => .ok x
    | Option.none => .error (.exc .keyError)
  | _ => .error (.exc .typeError)

/-- Python truthiness. -/
def pyTruthy : PyVal → Bool
  | .none => false
  | .bool b => b
  | .int i => i != 0
  | .float f => !f.isZero
  | .str s => !s.isEmpty
  | .list xs => !xs.isEmpty
  | .dict kvs => !kvs.isEmpty

/-- Python's `for c in v`: a list yields its elements, a string yields its
characters as one-character strings, a dict yields its keys, anything else
raises `TypeError`. -/
def pyIterate (v : PyVal) : Except Err (List PyVal) :=
  match v with
  | .list xs => .ok xs
  | .str s => .ok (s.toList.map fun c => .str (String.singleton c))
  | .dict kvs => .ok (kvs.map fun kv => .str kv.1)
  | _ => .error (.exc .typeError)

mutual
/-- Python `repr` of a value (approximate for strings, which is harmless:
it is used only inside error messages). -/
def PyVal.reprStr : PyVal → String
  | .none => "None"
  | .bool true => "True"
  | .bool false => "False"
  | .int i => toString i
  | .float f => f.repr
  | .str s => "\x27" ++ s ++ "\x27"
  | .list xs => "[" ++ reprStrList xs ++ "]"
  | .dict kvs => "\x7b" ++ reprStrDict kvs ++ "\x7d"

def reprStrList : List PyVal → String
  | [] => ""
  | [x] => x.reprStr
  | x :: xs => x.reprStr ++ ", " ++ reprStrList xs

def reprStrDict : List (String × PyVal) → String
  | [] => ""
  | [kv] => "\x27" ++ kv.1 ++ "\x27: " ++ kv.2.reprStr
  | kv :: kvs => "\x27" ++ kv.1 ++ "\x27: " ++ kv.2.reprStr ++ ", " ++ reprStrDict kvs
end

/-- Python `str` of a value: the raw string for a `str`, `repr` otherwise. -/
def PyVal.pyStr : PyVal → String
  | .str s => s
  | v => v.reprStr

/-- Python `type(v)` rendered the way it appears in error messages. -/
def pyTypeName : PyVal → String
  | .none => "<class \x27NoneType\x27>"
  | .bool _ => "<class \x27bool\x27>"
  | .int _ => "<class \x27int\x27>"
  | .float _ => "<class \x27float\x27>"
  | .str _ => "<class \x27str\x27>"
  | .list _ => "<class \x27list\x27>"
  | .dict _ => "<class \x27dict\x27>"

mutual
/-- Nesting depth of a `PyVal`; the termination measure of the compiler. -/
def PyVal.depth : PyVal → Nat
  | .list xs => 1 + depthList xs
  | .dict kvs => 1 + depthDict kvs
  | _ => 0

def depthList : List PyVal → Nat
  | [] => 0
  | x :: xs => max x.depth (depthList xs)

def depthDict : List (String × PyVal) → Nat
  | [] => 0
  | kv :: kvs => max kv.2.depth (depthDict kvs)
end

theorem dictGet_depth_le {kvs : List (String × PyVal)} {key : String} {v : PyVal}
    (h : dictGet kvs key = some v) : v.depth ≤ depthDict kvs := by
  induction kvs with
  | nil => simp [dictGet] at h
  | cons kv kvs ih =>
    simp only [dictGet] at h
    split at h
    · cases h; simp [depthDict, Nat.le_max_left]
    · exact le_trans (ih h) (by simp [depthDict, Nat.le_max_right])

theorem pyGet_depth_lt {c : PyVal} {key : String} {v : PyVal}
    (h : pyGet c key = .ok v) : v.depth < c.depth := by
  cases c with
  | dict kvs =>
    simp only [pyGet] at h
    split at h
    · rename_i x hget
      cases h
      exact lt_of_le_of_lt (dictGet_depth_le hget) (by simp [PyVal.depth])
    · cases h
  | none => cases h
  | bool b => cases h
  | int i => cases h
  | float f => cases h
  | str s => cases h
  | list xs => cases h

theorem depthList_le_of_mem {xs : List PyVal} {c : PyVal}
    (h : c ∈ xs) : c.depth ≤ depthList xs := by
  induction xs with
  | nil => cases h
  | cons x xs ih =>
    rcases List.mem_cons.mp h with rfl | h
    · simp only [depthList]
      exact le_max_left _ _
    · exact le_trans (ih h) (by simp only [depthList]; exact le_max_right _ _)

/-- The backslash character. -/
def bslash : Char := Char.ofNat 92

/-- The double-quote character. -/
def dquote : Char := Char.ofNat 34

/-- The single-quote character. -/
def squote : Char := Char.ofNat 39

/-- Python `s.replace(c, rep)` for a one-character pattern `c`: every
occurrence of `c`, left to right, is replaced by `rep`. -/
def replaceChar (c : Char) (rep : List Char) : List Char → List Char
  | [] => []
  | a :: as => if a = c then rep ++ replaceChar c rep as else a :: replaceChar c rep as

/-- `_escape_yql_string` of the source:
`value.replace("\\", "\\\\").replace('"', '\\"')`. -/
def _escape_yql_string (value : String) : String :=
  (replaceChar dquote [bslash, dquote]
    (replaceChar bslash [bslash, bslash] value.toList)).asString

/-- `_format_value` of the source: renders a scalar for a YQL fragment, or
raises `FilterError` on non-finite floats and unsupported types. -/
def _format_value (value : PyVal) : Except Err String :=
  match value with
  | .str s => .ok ("\"" ++ _escape_yql_string s ++ "\"")
  | .bool b => .ok (if b then "true" else "false")
  | .int i => .ok (toString i)
  | .float f =>
    if f.isInf || f.isNan then
      .error (.filter ("Filter value " ++ f.repr ++ " is not supported in Vespa YQL"))
    else
      .ok f.repr
  | v => .error (.filter ("Unsupported filter value type: " ++ pyTypeName v))

/-- `_equal` of the source. -/
def _equal (field : String) (value : PyVal) : Except Err String :=
  match value with
  | .none => .error (.filter "Filtering for None/null values is not supported in Vespa")
  | .str s => .ok (field ++ " contains \"" ++ _escape_yql_string s ++ "\"")
  | v => (_format_value v).map fun r => field ++ " = " ++ r

/-- `_not_equal` of the source. -/
def _not_equal (field : String) (value : PyVal) : Except Err String :=
  match value with
  | .none => .error (.filter "Filtering for None/null values is not supported in Vespa")
  | .str s => .ok ("!(" ++ field ++ " contains \"" ++ _escape_yql_string s ++ "\")")
  | v => (_format_value v).map fun r => "!(" ++ field ++ " = " ++ r ++ ")"

/-- `_validate_range_value` of the source: range operators refuse `None` and
lists, and let every other value through. -/
def _validate_range_value (value : PyVal) : Except Err Unit :=
  match value with
  | .none => .error (.filter "Range operators do not support None values")
  | .list xs =>
    .error (.filter ("Filter value can\x27t be of type " ++ pyTypeName (.list xs) ++
      " using range operators"))
  | _ => .ok ()

/-- `_greater_than` of the source. -/
def _greater_than (field : String) (value : PyVal) : Except Err String := do
  _validate_range_value value
  let r ← _format_value value
  return field ++ " > " ++ r

/-- `_greater_than_equal` of the source. -/
def _greater_than_equal (field : String) (value : PyVal) : Except Err String := do
  _validate_range_value value
  let r ← _format_value value
  return field ++ " >= " ++ r

/-- `_less_than` of the source. -/
def _less_than (field : String) (value : PyVal) : Except Err String := do
  _validate_range_value value
  let r ← _format_value value
  return field ++ " < " ++ r

/-- `_less_than_equal` of the source. -/
def _less_than_equal (field : String) (value : PyVal) : Except Err String := do
  _validate_range_value value
  let r ← _format_value value
  return field ++ " <= " ++ r

/-- The element-rendering loop body of `_in`: strings are single-quoted with
`\` and `'` escaped, booleans are checked before the numeric case, ints and
floats are rendered with `str()` (note: no infinity/NaN check here, unlike
`_format_value`), and any other element type raises `FilterError`. -/
def _in_element (v : PyVal) : Except Err String :=
  match v with
  | .str s =>
    .ok ("\x27" ++ (replaceChar squote [bslash, squote]
      (replaceChar bslash [bslash, bslash] s.toList)).asString ++ "\x27")
  | .bool b => .ok (if b then "true" else "false")
  | .int i => .ok (toString i)
  | .float f => .ok f.repr
  | v => .error (.filter ("Unsupported value type in \x27in\x27 list: " ++ pyTypeName v))

/-- `_in` of the source. -/
def _in (field : String) (value : PyVal) : Except Err String :=
  match value with
  | .list vs =>
    if vs.isEmpty then
      .error (.filter ("\x27" ++ field ++
        "\x27 filter with \x27in\x27 or \x27not in\x27 requires a non-empty list"))
    else
      (vs.mapM _in_element).map fun formatted =>
        field ++ " in (" ++ String.intercalate ", " formatted ++ ")"
  | _ =>
    .error (.filter (field ++
      "\x27s value must be a list when using \x27in\x27 or \x27not in\x27 comparators"))

/-- `_not_in` of the source. -/
def _not_in (field : String) (value : PyVal) : Except Err String :=
  match value with
  | .list _ => (_in field value).map fun r => "!(" ++ r ++ ")"
  | _ =>
    .error (.filter (field ++
      "\x27s value must be a list when using \x27in\x27 or \x27not in\x27 comparators"))

/-- The `COMPARISON_OPERATORS` dispatch table of the source. -/
def COMPARISON_OPERATORS : List (String × (String → PyVal → Except Err String)) :=
  [("==", _equal), ("!=", _not_equal), (">", _greater_than), (">=", _greater_than_equal),
   ("<", _less_than), ("<=", _less_than_equal), ("in", _in), ("not in", _not_in)]

/-- Key lookup in `COMPARISON_OPERATORS`. -/
def lookupComparisonOperator (op : String) : Option (String → PyVal → Except Err String) :=
  (COMPARISON_OPERATORS.find? fun p => p.1 == op).map (·.2)

/-- Python `field.startswith("meta.")` (a code-point prefix test). -/
def startsWithMeta (field : String) : Bool :=
  "meta.".toList.isPrefixOf field.toList

/-- The `meta.`-stripping step of `_parse_comparison_condition`:
`field = field[5:]` exactly when `field.startswith("meta.")`. -/
def stripMeta (field : String) : String :=
  if startsWithMeta field then (field.toList.drop 5).asString else field

theorem pyIterate_depth_le {v c : PyVal} {cs : List PyVal}
    (h : pyIterate v = .ok cs) (hc : c ∈ cs) : c.depth ≤ v.depth := by
  cases v with
  | list xs =>
    cases h
    exact le_trans (depthList_le_of_mem hc) (by simp [PyVal.depth])
  | str s =>
    cases h
    simp only [List.mem_map] at hc
    obtain ⟨ch, -, rfl⟩ := hc
    simp [PyVal.depth]
  | dict kvs =>
    cases h
    simp only [List.mem_map] at hc
    obtain ⟨kv, -, rfl⟩ := hc
    simp [PyVal.depth]
  | none => cases h
  | bool b => cases h
  | int i => cases h
  | float f => cases h

mutual
/-- `_parse_logical_condition` of the source.  Key membership, indexing,
truthiness and iteration follow Python semantics (`pyIn`, `pyGet`,
`pyTruthy`, `pyIterate`), so that the behaviour on malformed nodes —
including the `TypeError`s Python raises on non-dict children — is captured
faithfully. -/
def _parse_logical_condition (condition : PyVal) : Except Err String :=
  match pyIn "operator" condition with
  | .error e => .error e
  | .ok false => .error (.filter ("\x27operator\x27 key missing in " ++ condition.reprStr))
  | .ok true =>
  match pyIn "conditions" condition with
  | .error e => .error e
  | .ok false => .error (.filter ("\x27conditions\x27 key missing in " ++ condition.reprStr))
  | .ok true =>
  match pyGet condition "operator" with
  | .error e => .error e
  | .ok operator =>
  match hGet : pyGet condition "conditions" with
  | .error e => .error e
  | .ok condsVal =>
  if pyTruthy condsVal then
    match hIter : pyIterate condsVal with
    | .error e => .error e
    | .ok children =>
    match children.attach.mapM (fun c => _parse_comparison_condition c.1) with
    | .error e => .error e
    | .ok conditions =>
    match operator with
    | .str "AND" => .ok ("(" ++ String.intercalate " and " conditions ++ ")")
    | .str "OR" => .ok ("(" ++ String.intercalate " or " conditions ++ ")")
    | .str "NOT" => .ok ("!(" ++ String.intercalate " and " conditions ++ ")")
    | op => .error (.filter ("Unknown logical operator \x27" ++ op.pyStr ++ "\x27"))
  else
    .error (.filter ("\x27" ++ operator.pyStr ++ "\x27 operator requires at least one condition"))
termination_by 2 * condition.depth
decreasing_by
  have h1 := pyGet_depth_lt hGet
  have h2 := pyIterate_depth_le hIter c.2
  omega

/-- `_parse_comparison_condition` of the source.  A node without a `field`
key is handed to `_parse_logical_condition`; a non-string field raises
`AttributeError` (Python's `.startswith` on a non-string); an unhashable
operator value (list or dict) raises `TypeError` inside the
`operator not in COMPARISON_OPERATORS` test. -/
def _parse_comparison_condition (condition : PyVal) : Except Err String :=
  match pyIn "field" condition with
  | .error e => .error e
  | .ok false => _parse_logical_condition condition
  | .ok true =>
  match pyGet condition "field" with
  | .error e => .error e
  | .ok fieldVal =>
  match fieldVal with
  | .str field0 =>
    let field := stripMeta field0
    match pyIn "operator" condition with
    | .error e => .error e
    | .ok false => .error (.filter ("\x27operator\x27 key missing in " ++ condition.reprStr))
    | .ok true =>
    match pyIn "value" condition with
    | .error e => .error e
    | .ok false => .error (.filter ("\x27value\x27 key missing in " ++ condition.reprStr))
    | .ok true =>
    match pyGet condition "operator" with
    | .error e => .error e
    | .ok operator =>
    match pyGet condition "value" with
    | .error e => .error e
    | .ok value =>
    match operator with
    | .list _ => .error (.exc .typeError)
    | .dict _ => .error (.exc .typeError)
    | .str op =>
      match lookupComparisonOperator op with
      | some f => f field value
      | Option.none => .error (.filter ("Unknown comparison operator \x27" ++ op ++ "\x27"))
    | op => .error (.filter ("Unknown comparison operator \x27" ++ op.pyStr ++ "\x27"))
  | _ => .error (.exc .attributeError)
termination_by 2 * condition.depth + 1
decreasing_by omega
end

/-- `normalize_filters` of the source: the entry point.  A non-dict input is
rejected with `FilterError`; a dict with a `field` key is compiled as a
comparison leaf, any other dict as a logical node. -/
def normalize_filters (filters : PyVal) : Except Err String :=
  match filters with
  | .dict kvs =>
    if (dictGet kvs "field").isSome then _parse_comparison_condition filters
    else _parse_logical_condition filters
  | _ => .error (.filter "Filters must be a dictionary")

theorem mapM_map {α β γ : Type} (g : α → β) (f : β → Except Err γ) (l : List α) :
    (l.map g).mapM f = l.mapM (fun a => f (g a)) := by
  induction l with
  | nil => rfl
  | cons x xs ih => rw [List.map_cons, List.mapM_cons, List.mapM_cons, ih]

/-- The compiled-children list of `_parse_logical_condition` is an ordinary
`mapM` of `_parse_comparison_condition`; `attach` only carries the
termination bookkeeping. -/
theorem attach_mapM (f : PyVal → Except Err String) (l : List PyVal) :
    (l.attach.mapM fun c => f c.1) = l.mapM f := by
  induction l with
  | nil => rfl
  | cons x xs ih =>
    rw [List.attach_cons, List.mapM_cons, List.mapM_cons, mapM_map]
    have h : (xs.attach.mapM fun a =>
        f ((fun j => (⟨j.1, List.mem_cons_of_mem x j.2⟩ : {y // y ∈ x :: xs})) a).1) =
        xs.attach.mapM fun c => f c.1 := by
      congr 1
    rw [h, ih]



mutual
/-- Fuel-indexed computation twin of `_parse_logical_condition`, used only to
evaluate the compiler on concrete inputs by kernel reduction; `run_eq_parse`
shows it agrees with the real definition whenever the fuel exceeds twice the
input's depth. -/
def parseLogicalFuel : Nat → PyVal → Except Err String
  | 0, _ => .error (.filter "")
  | fuel + 1, condition =>
    match pyIn "operator" condition with
    | .error e => .error e
    | .ok false => .error (.filter ("\x27operator\x27 key missing in " ++ condition.reprStr))
    | .ok true =>
    match pyIn "conditions" condition with
    | .error e => .error e
    | .ok false => .error (.filter ("\x27conditions\x27 key missing in " ++ condition.reprStr))
    | .ok true =>
    match pyGet condition "operator" with
    | .error e => .error e
    | .ok operator =>
    match pyGet condition "conditions" with
    | .error e => .error e
    | .ok condsVal =>
    if pyTruthy condsVal then
      match pyIterate condsVal with
      | .error e => .error e
      | .ok children =>
      match children.mapM (parseComparisonFuel fuel) with
      | .error e => .error e
      | .ok conditions =>
      match operator with
      | .str "AND" => .ok ("(" ++ String.intercalate " and " conditions ++ ")")
      | .str "OR" => .ok ("(" ++ String.intercalate " or " conditions ++ ")")
      | .str "NOT" => .ok ("!(" ++ String.intercalate " and " conditions ++ ")")
      | op => .error (.filter ("Unknown logical operator \x27" ++ op.pyStr ++ "\x27"))
    else
      .error (.filter ("\x27" ++ operator.pyStr ++ "\x27 operator requires at least one condition"))

/-- Fuel-indexed computation twin of `_parse_comparison_condition`. -/
def parseComparisonFuel : Nat → PyVal → Except Err String
  | 0, _ => .error (.filter "")
  | fuel + 1, condition =>
    match pyIn "field" condition with
    | .error e => .error e
    | .ok false => parseLogicalFuel fuel condition
    | .ok true =>
    match pyGet condition "field" with
    | .error e => .error e
    | .ok fieldVal =>
    match fieldVal with
    | .str field0 =>
      let field := stripMeta field0
      match pyIn "operator" condition with
      | .error e => .error e
      | .ok false => .error (.filter ("\x27operator\x27 key missing in " ++ condition.reprStr))
      | .ok true =>
      match pyIn "value" condition with
      | .error e => .error e
      | .ok false => .error (.filter ("\x27value\x27 key missing in " ++ condition.reprStr))
      | .ok true =>
      match pyGet condition "operator" with
      | .error e => .error e
      | .ok operator =>
      match pyGet condition "value" with
      | .error e => .error e
      | .ok value =>
      match operator with
      | .list _ => .error (.exc .typeError)
      | .dict _ => .error (.exc .typeError)
      | .str op =>
        match lookupComparisonOperator op with
        | some f => f field value
        | Option.none => .error (.filter ("Unknown comparison operator \x27" ++ op ++ "\x27"))
      | op => .error (.filter ("Unknown comparison operator \x27" ++ op.pyStr ++ "\x27"))
    | _ => .error (.exc .attributeError)
end

/-- Executable twin of `normalize_filters`, with the fuel fixed to a bound
large enough for the whole input. -/
def normalizeRun (filters : PyVal) : Except Err String :=
  match filters with
  | .dict kvs =>
    if (dictGet kvs "field").isSome then parseComparisonFuel (2 * filters.depth + 2) filters
    else parseLogicalFuel (2 * filters.depth + 2) filters
  | _ => .error (.filter "Filters must be a dictionary")

theorem mapM_congr {α β : Type} {l : List α} {f g : α → Except Err β}
    (h : ∀ a ∈ l, f a = g a) : l.mapM f = l.mapM g := by
  induction l with
  | nil => rfl
  | cons x xs ih =>
    rw [List.mapM_cons, List.mapM_cons, h x (List.mem_cons_self x xs),
      ih fun a ha => h a (List.mem_cons_of_mem x ha)]

theorem fuel_adequate : ∀ fuel, ∀ condition : PyVal,
    (2 * condition.depth < fuel →
      parseLogicalFuel fuel condition = _parse_logical_condition condition) ∧
    (2 * condition.depth + 1 < fuel →
      parseComparisonFuel fuel condition = _parse_comparison_condition condition) := by
  intro fuel
  induction fuel with
  | zero => exact fun condition => ⟨fun h => absurd h (by omega), fun h => absurd h (by omega)⟩
  | succ fuel ih =>
    intro condition
    constructor
    · intro hd
      rw [_parse_logical_condition.eq_def]
      simp only [parseLogicalFuel]
      cases h1 : pyIn "operator" condition with
      | error e => rfl
      | ok b1 =>
        cases b1 with
        | false => rfl
        | true =>
          cases h2 : pyIn "conditions" condition with
          | error e => rfl
          | ok b2 =>
            cases b2 with
            | false => rfl
            | true =>
              cases h3 : pyGet condition "operator" with
              | error e => rfl
              | ok operator =>
                cases h4 : pyGet condition "conditions" with
                | error e => rfl
                | ok condsVal =>
                  cases h5 : pyTruthy condsVal with
                  | false => simp only [h5, Bool.false_eq_true, if_false]
                  | true =>
                    cases h6 : pyIterate condsVal with
                    | error e =>
                      simp only [h5, if_true, h6]
                      symm
                      split
                      · rename_i e1 heq
                        rw [h6] at heq
                        injection heq with he
                        rw [he]
                      · rename_i cs heq
                        rw [h6] at heq
                        exact absurd heq (by simp)
                    | ok children =>
                      simp only [h5, if_true, h6]
                      rw [mapM_congr (fun c hc => (ih c).2 (by
                        have hg := pyGet_depth_lt h4
                        have hi := pyIterate_depth_le h6 hc
                        omega))]
                      rw [← attach_mapM]
                      symm
                      split
                      · rename_i e1 heq
                        rw [h6] at heq
                        exact absurd heq (by simp)
                      · rename_i cs heq
                        rw [h6] at heq
                        injection heq with he
                        rw [he]
    · intro hd
      rw [_parse_comparison_condition.eq_def]
      simp only [parseComparisonFuel]
      cases h1 : pyIn "field" condition with
      | error e => rfl
      | ok b1 =>
        cases b1 with
        | false => exact (ih condition).1 (by omega)
        | true => rfl

/-- `normalizeRun` computes exactly `normalize_filters`: the fixed fuel
`2 * depth + 2` is always sufficient. -/
theorem normalizeRun_eq (filters : PyVal) : normalizeRun filters = normalize_filters filters := by
  cases filters with
  | dict kvs =>
    simp only [normalizeRun, normalize_filters]
    split
    · exact (fuel_adequate _ _).2 (by omega)
    · exact (fuel_adequate _ _).1 (by omega)
  | none => rfl
  | bool b => rfl
  | int i => rfl
  | float f => rfl
  | str s => rfl
  | list xs => rfl

/-- The specification's nested scenario: an `AND` of a range comparison and
an `OR` group compiles to the expected fragment. -/
theorem scenario_nested_and_or :
    normalize_filters (.dict [("operator", .str "AND"), ("conditions", .list
    [.dict [("field", .str "meta.date"), ("operator", .str ">="), ("value", .str "2015-01-01")],
     .dict [("operator", .str "OR"), ("conditions", .list
       [.dict [("field", .str "meta.g"), ("operator", .str "=="), ("value", .str "x")],
        .dict [("field", .str "meta.g"), ("operator", .str "=="), ("value", .str "y")]])]])]) =
    .ok "(date >= \"2015-01-01\" and (g contains \"x\" or g contains \"y\"))" := by
  rw [← normalizeRun_eq]
  decide

/-- The double-quote escaping regime as the specification words it: one pass
over the string, escaping exactly `\` and `"`, each occurrence once. -/
def dqEscapeSpec : List Char → List Char
  | [] => []
  | a :: as =>
    if a = bslash || a = dquote then bslash :: a :: dqEscapeSpec as
    else a :: dqEscapeSpec as

/-- The single-quote escaping regime as the specification words it: one pass
over the string, escaping exactly `\` and `'`, each occurrence once;
a double quote is left untouched. -/
def sqEscapeSpec : List Char → List Char
  | [] => []
  | a :: as =>
    if a = bslash || a = squote then bslash :: a :: sqEscapeSpec as
    else a :: sqEscapeSpec as

theorem replace_dq_spec (l : List Char) :
    replaceChar dquote [bslash, dquote] (replaceChar bslash [bslash, bslash] l) =
      dqEscapeSpec l := by
  induction l with
  | nil => rfl
  | cons a as ih =>
    by_cases hb : a = bslash
    · subst hb
      simp only [replaceChar, if_pos rfl, List.append_eq, List.cons_append, List.nil_append,
        dqEscapeSpec, Bool.or_eq_true, decide_eq_true_eq]
      rw [if_neg (by decide), if_neg (by decide)]
      simp only [ih, dqEscapeSpec]
      rw [if_pos (by simp)]
    · by_cases hq : a = dquote
      · subst hq
        simp only [replaceChar, if_neg hb, if_pos rfl, List.append_eq, List.cons_append,
          List.nil_append, dqEscapeSpec]
        rw [if_pos (by simp)]
        exact congrArg _ (congrArg _ ih)
      · simp only [replaceChar, if_neg hb, if_neg hq, dqEscapeSpec]
        rw [if_neg (by simp [hb, hq])]
        exact congrArg _ ih

theorem replace_sq_spec (l : List Char) :
    replaceChar squote [bslash, squote] (replaceChar bslash [bslash, bslash] l) =
      sqEscapeSpec l := by
  induction l with
  | nil => rfl
  | cons a as ih =>
    by_cases hb : a = bslash
    · subst hb
      simp only [replaceChar, if_pos rfl, List.append_eq, List.cons_append, List.nil_append]
      rw [if_neg (by decide), if_neg (by decide)]
      simp only [ih, sqEscapeSpec]
      rw [if_pos (by simp)]
    · by_cases hq : a = squote
      · subst hq
        simp only [replaceChar, if_neg hb, if_pos rfl, List.append_eq, List.cons_append,
          List.nil_append, sqEscapeSpec]
        rw [if_pos (by simp)]
        exact congrArg _ (congrArg _ ih)
      · simp only [replaceChar, if_neg hb, if_neg hq, sqEscapeSpec]
        rw [if_neg (by simp [hb, hq])]
        exact congrArg _ ih

/-- C3.  String values are rendered under exactly two escaping regimes.  In
equality-style (double-quoted) fragments, `_escape_yql_string` performs the
one-pass escape of `\` and `"` — each occurrence escaped exactly once, no
double-escaping, single quotes untouched.  In `in`/`not in` (single-quoted)
list fragments, the element renderer performs the one-pass escape of `\` and
`'` instead — embedded double quotes are left untouched, as `sqEscapeSpec`
never rewrites a `"`. -/
theorem string_escaping_two_regimes (s : String) :
    (_escape_yql_string s).toList = dqEscapeSpec s.toList ∧
    _in_element (.str s) = .ok ("\x27" ++ (sqEscapeSpec s.toList).asString ++ "\x27") := by
  constructor
  · show (replaceChar dquote [bslash, dquote]
      (replaceChar bslash [bslash, bslash] s.toList)).asString.toList = _
    rw [replace_dq_spec]
    rfl
  · show Except.ok _ = _
    rw [replace_sq_spec]

/-- C4.  For a string value, `==` emits `field contains "<escaped>"` and `!=`
emits `!(field contains "<escaped>")` — `contains`, never `=`; for any
non-string value that `_format_value` renders (booleans, ints, finite
floats), `==` emits `field = <rendered>` and `!=` emits
`!(field = <rendered>)`. -/
theorem equal_contains_for_strings (field : String) :
    (∀ s, _equal field (.str s) =
        .ok (field ++ " contains \"" ++ _escape_yql_string s ++ "\"") ∧
      _not_equal field (.str s) =
        .ok ("!(" ++ field ++ " contains \"" ++ _escape_yql_string s ++ "\")")) ∧
    (∀ v r, (∀ s, v ≠ .str s) → _format_value v = .ok r →
      _equal field v = .ok (field ++ " = " ++ r) ∧
      _not_equal field v = .ok ("!(" ++ field ++ " = " ++ r ++ ")")) := by
  constructor
  · intro s
    exact ⟨rfl, rfl⟩
  · intro v r hns hfmt
    cases v with
    | none => cases hfmt
    | str s => exact absurd rfl (hns s)
    | bool b => simp [_equal, _not_equal, hfmt, Except.map]
    | int i => simp [_equal, _not_equal, hfmt, Except.map]
    | float f => simp [_equal, _not_equal, hfmt, Except.map]
    | list xs => cases hfmt
    | dict kvs => cases hfmt

/-- Closed witness for `equal_contains_for_strings`. -/
theorem equal_contains_for_strings_witness :
    _equal "age" (.int 30) = .ok ("age" ++ " = " ++ "30") ∧
    _not_equal "age" (.int 30) = .ok ("!(" ++ "age" ++ " = " ++ "30" ++ ")") :=
  (equal_contains_for_strings "age").2 (.int 30) "30"
    (fun s h => PyVal.noConfusion h) rfl

/-- C8.  A boolean value renders as the literal `true`/`false` both in scalar
rendering (`_format_value`) and in `in`/`not in` list rendering
(`_in_element`); it is never rendered through the numeric path as `True`,
`False`, `1` or `0`, because in both renderers the boolean test precedes the
numeric one. -/
theorem bool_renders_true_false (b : Bool) :
    _format_value (.bool b) = .ok (if b then "true" else "false") ∧
    _in_element (.bool b) = .ok (if b then "true" else "false") ∧
    _format_value (.bool b) ≠ .ok "True" ∧ _format_value (.bool b) ≠ .ok "False" ∧
    _format_value (.bool b) ≠ .ok "1" ∧ _format_value (.bool b) ≠ .ok "0" ∧
    _in_element (.bool b) ≠ .ok "True" ∧ _in_element (.bool b) ≠ .ok "False" ∧
    _in_element (.bool b) ≠ .ok "1" ∧ _in_element (.bool b) ≠ .ok "0" := by
  cases b <;> exact ⟨rfl, rfl, by decide, by decide, by decide, by decide,
    by decide, by decide, by decide, by decide⟩

/-- C10.  Range operators accept boolean values: `_validate_range_value`
rejects only `None` and lists, so a boolean passes validation and is rendered
`field <op> true/false` by every range operator. -/
theorem range_accepts_booleans (field : String) (b : Bool) :
    _greater_than field (.bool b) = .ok (field ++ " > " ++ (if b then "true" else "false")) ∧
    _greater_than_equal field (.bool b) =
      .ok (field ++ " >= " ++ (if b then "true" else "false")) ∧
    _less_than field (.bool b) = .ok (field ++ " < " ++ (if b then "true" else "false")) ∧
    _less_than_equal field (.bool b) =
      .ok (field ++ " <= " ++ (if b then "true" else "false")) ∧
    (∀ v, v ≠ .none → (∀ xs, v ≠ .list xs) → _validate_range_value v = .ok ()) := by
  refine ⟨?_, ?_, ?_, ?_, ?_⟩
  · cases b <;> rfl
  · cases b <;> rfl
  · cases b <;> rfl
  · cases b <;> rfl
  · intro v hn hl
    cases v with
    | none => exact absurd rfl hn
    | list xs => exact absurd rfl (hl xs)
    | bool c => rfl
    | int i => rfl
    | float f => rfl
    | str s => rfl
    | dict kvs => rfl

/-- Closed witness for `range_accepts_booleans`. -/
theorem range_accepts_booleans_witness :
    _greater_than "active" (.bool true) =
      .ok ("active" ++ " > " ++ (if true then "true" else "false")) ∧
    _validate_range_value (.int 7) = .ok () :=
  ⟨(range_accepts_booleans "active" true).1,
   (range_accepts_booleans "active" true).2.2.2.2 (.int 7)
     (fun h => PyVal.noConfusion h) (fun xs h => PyVal.noConfusion h)⟩

theorem toList_asString (l : List Char) : (List.asString l).toList = l := rfl

theorem asString_toList (s : String) : s.toList.asString = s := rfl

/-- C6.  The `meta.` prefix (exactly the first five characters) is stripped
if and only if the field name starts with `meta.`; the stripping happens at
most once (a second leading `meta.` survives), and an embedded `meta.`
occurrence is left untouched. -/
theorem meta_prefix_stripping :
    (∀ f : String, startsWithMeta f = true → (stripMeta f).toList = f.toList.drop 5) ∧
    (∀ f : String, startsWithMeta f = false → stripMeta f = f) ∧
    (∀ r : String, stripMeta ("meta." ++ r) = r) ∧
    startsWithMeta "a.meta.b" = false ∧
    stripMeta "a.meta.b" = "a.meta.b" ∧
    stripMeta "meta.meta.x" = "meta.x" := by
  refine ⟨?_, ?_, ?_, by decide, by decide, by decide⟩
  · intro f hf
    simp only [stripMeta, hf, if_true]
    exact toList_asString _
  · intro f hf
    simp only [stripMeta, hf, Bool.false_eq_true, if_false]
  · intro r
    have hsw : startsWithMeta ("meta." ++ r) = true := by
      simp only [startsWithMeta, String.toList, String.data_append,
        List.isPrefixOf_iff_prefix]
      exact List.prefix_append _ _
    simp only [stripMeta, hsw, if_true, String.toList, String.data_append]
    have hl : "meta.".data.length = 5 := by decide
    have h5 : ("meta.".data ++ r.data).drop 5 = r.data := by
      rw [← hl]
      exact List.drop_left _ _
    rw [h5]
    exact asString_toList r

/-- Closed witness for `meta_prefix_stripping`. -/
theorem meta_prefix_stripping_witness :
    (stripMeta "meta.type").toList = "meta.type".toList.drop 5 ∧
    stripMeta "category" = "category" ∧
    stripMeta ("meta." ++ "date") = "date" :=
  ⟨meta_prefix_stripping.1 "meta.type" (by decide),
   meta_prefix_stripping.2.1 "category" (by decide),
   meta_prefix_stripping.2.2.1 "date"⟩

/-- C7.  The precondition violations that raise `FilterError`: an empty
`conditions` list on a logical node; a `None` value under `==`, `!=` or any
range operator; a list value under a range operator; a non-list value under
`in`/`not in`; an empty list under `in`/`not in`.  Each case errors instead
of emitting a fragment such as `()` or `field in ()`. -/
theorem filter_error_preconditions :
    (∀ (kvs : List (String × PyVal)) (op : PyVal),
      dictGet kvs "operator" = some op →
      dictGet kvs "conditions" = some (.list []) →
      _parse_logical_condition (.dict kvs) =
        .error (.filter ("\x27" ++ op.pyStr ++ "\x27 operator requires at least one condition"))) ∧
    (∀ field : String,
      _equal field .none =
        .error (.filter "Filtering for None/null values is not supported in Vespa") ∧
      _not_equal field .none =
        .error (.filter "Filtering for None/null values is not supported in Vespa") ∧
      _greater_than field .none = .error (.filter "Range operators do not support None values") ∧
      _greater_than_equal field .none =
        .error (.filter "Range operators do not support None values") ∧
      _less_than field .none = .error (.filter "Range operators do not support None values") ∧
      _less_than_equal field .none =
        .error (.filter "Range operators do not support None values")) ∧
    (∀ (field : String) (xs : List PyVal),
      _greater_than field (.list xs) =
        .error (.filter ("Filter value can\x27t be of type <class \x27list\x27>" ++
          " using range operators")) ∧
      _greater_than_equal field (.list xs) =
        .error (.filter ("Filter value can\x27t be of type <class \x27list\x27>" ++
          " using range operators")) ∧
      _less_than field (.list xs) =
        .error (.filter ("Filter value can\x27t be of type <class \x27list\x27>" ++
          " using range operators")) ∧
      _less_than_equal field (.list xs) =
        .error (.filter ("Filter value can\x27t be of type <class \x27list\x27>" ++
          " using range operators"))) ∧
    (∀ (field : String) (v : PyVal), (∀ xs, v ≠ .list xs) →
      _in field v = .error (.filter (field ++
        "\x27s value must be a list when using \x27in\x27 or \x27not in\x27 comparators")) ∧
      _not_in field v = .error (.filter (field ++
        "\x27s value must be a list when using \x27in\x27 or \x27not in\x27 comparators"))) ∧
    (∀ field : String,
      _in field (.list []) = .error (.filter ("\x27" ++ field ++
        "\x27 filter with \x27in\x27 or \x27not in\x27 requires a non-empty list")) ∧
      _not_in field (.list []) = .error (.filter ("\x27" ++ field ++
        "\x27 filter with \x27in\x27 or \x27not in\x27 requires a non-empty list"))) := by
  refine ⟨?_, ?_, ?_, ?_, ?_⟩
  · intro kvs op hop hconds
    rw [_parse_logical_condition.eq_def]
    simp only [pyIn, pyGet, hop, hconds, Option.isSome]
    split
    · rename_i e heq
      rw [hconds] at heq
      simp at heq
    · rename_i condsVal heq
      rw [hconds] at heq
      simp only [Except.ok.injEq] at heq
      subst heq
      simp
      intro habs
      exact absurd habs (by decide)
  · intro field
    exact ⟨rfl, rfl, rfl, rfl, rfl, rfl⟩
  · intro field xs
    exact ⟨rfl, rfl, rfl, rfl⟩
  · intro field v hv
    cases v with
    | list xs => exact absurd rfl (hv xs)
    | none => exact ⟨rfl, rfl⟩
    | bool b => exact ⟨rfl, rfl⟩
    | int i => exact ⟨rfl, rfl⟩
    | float f => exact ⟨rfl, rfl⟩
    | str s => exact ⟨rfl, rfl⟩
    | dict kvs => exact ⟨rfl, rfl⟩
  · intro field
    exact ⟨rfl, rfl⟩

/-- Closed witness for `filter_error_preconditions`. -/
theorem filter_error_preconditions_witness :
    _parse_logical_condition (.dict [("operator", .str "AND"), ("conditions", .list [])]) =
      .error (.filter ("\x27" ++ (PyVal.str "AND").pyStr ++
        "\x27 operator requires at least one condition")) ∧
    _in "status" (.str "open") = .error (.filter ("status" ++
      "\x27s value must be a list when using \x27in\x27 or \x27not in\x27 comparators")) :=
  ⟨filter_error_preconditions.1 [("operator", .str "AND"), ("conditions", .list [])]
    (.str "AND") rfl rfl,
   (filter_error_preconditions.2.2.2.1 "status" (.str "open")
     (fun xs h => PyVal.noConfusion h)).1⟩

/-- C1 counterexample.  A comparison node whose `in` list contains an
infinite float compiles successfully, and the rendered output contains the
text `inf`: the element loop of `_in` formats ints and floats with `str()`
and performs no `isinf`/`isnan` check, unlike `_format_value`. -/
theorem inf_in_list_renders :
    normalize_filters (.dict [("field", .str "f"), ("operator", .str "in"),
      ("value", .list [.float ⟨true, false, false, "inf"⟩])]) = .ok "f in (inf)" := by
  rw [← normalizeRun_eq]
  decide

/-- C1 amended.  Scalar rendering (`_format_value`, used by equality,
inequality and range operators) rejects an infinite or NaN float with
`FilterError`; but the `in`/`not in` element renderer performs no such check
and emits `str()` of the float, so an infinite or NaN float inside an
`in`/`not in` list is rendered into the output string. -/
theorem inf_nan_rejected_in_scalar_context :
    (∀ f : PyFloat, (f.isInf || f.isNan) = true →
      _format_value (.float f) =
        .error (.filter ("Filter value " ++ f.repr ++ " is not supported in Vespa YQL"))) ∧
    (∀ f : PyFloat, _in_element (.float f) = .ok f.repr) := by
  constructor
  · intro f hf
    simp [_format_value, hf]
  · intro f
    rfl

/-- Closed witness for `inf_nan_rejected_in_scalar_context`. -/
theorem inf_nan_rejected_in_scalar_context_witness :
    _format_value (.float ⟨true, false, false, "inf"⟩) =
      .error (.filter ("Filter value " ++ "inf" ++ " is not supported in Vespa YQL")) :=
  inf_nan_rejected_in_scalar_context.1 ⟨true, false, false, "inf"⟩ (by decide)

theorem mapM_ok_length {α β : Type} {f : α → Except Err β} :
    ∀ {l : List α} {rs : List β}, l.mapM f = .ok rs → rs.length = l.length := by
  intro l
  induction l with
  | nil =>
    intro rs h
    simp only [List.mapM_nil] at h
    cases h
    rfl
  | cons x xs ih =>
    intro rs h
    rw [List.mapM_cons] at h
    cases hx : f x with
    | error e => rw [hx] at h; cases h
    | ok r =>
      rw [hx] at h
      cases hxs : xs.mapM f with
      | error e =>
        rw [hxs] at h
        cases h
      | ok rs2 =>
        rw [hxs] at h
        cases h
        simp [ih hxs]

/-- How `_parse_logical_condition` behaves on a well-shaped logical dict:
with `operator` and a non-empty list of `conditions` present, and every child
compiling successfully, the result is determined entirely by the operator
string. -/
theorem parse_logical_dict (kvs : List (String × PyVal)) (op : PyVal) (cs : List PyVal)
    (rs : List String)
    (hop : dictGet kvs "operator" = some op)
    (hconds : dictGet kvs "conditions" = some (.list cs))
    (hne : cs ≠ [])
    (hmap : cs.mapM _parse_comparison_condition = .ok rs) :
    _parse_logical_condition (.dict kvs) =
      match op with
      | .str "AND" => .ok ("(" ++ String.intercalate " and " rs ++ ")")
      | .str "OR" => .ok ("(" ++ String.intercalate " or " rs ++ ")")
      | .str "NOT" => .ok ("!(" ++ String.intercalate " and " rs ++ ")")
      | op => .error (.filter ("Unknown logical operator \x27" ++ op.pyStr ++ "\x27")) := by
  rw [_parse_logical_condition.eq_def]
  simp only [pyIn, pyGet, hop, hconds, Option.isSome]
  split
  · rename_i e heq
    rw [hconds] at heq
    simp at heq
  · rename_i condsVal heq
    rw [hconds] at heq
    simp only [Except.ok.injEq] at heq
    subst heq
    have htruthy : pyTruthy (.list cs) = true := by
      cases cs with
      | nil => exact absurd rfl hne
      | cons c cs => rfl
    rw [if_pos htruthy]
    simp only [pyIterate]
    rw [attach_mapM, hmap]
    cases op with
    | str s =>
      by_cases hA : s = "AND"
      · subst hA; rfl
      · by_cases hO : s = "OR"
        · subst hO; rfl
        · by_cases hN : s = "NOT"
          · subst hN; rfl
          · simp [hA, hO, hN, PyVal.pyStr]
    | none => rfl
    | bool b => rfl
    | int i => rfl
    | float f => rfl
    | list l => rfl
    | dict kvs2 => rfl

/-- C5.  A logical node with non-empty conditions joins the compiled
children: `AND` wraps them in one pair of parentheses joined by ` and `,
`OR` by ` or `, `NOT` produces `!(` + children joined by ` and ` + `)`;
the number of joined fragments equals the number of conditions; any other
operator string raises `FilterError`; and a nested child without a `field`
key is compiled as a full logical node by the same dispatch. -/
theorem logical_join_rule (kvs : List (String × PyVal)) (cs : List PyVal) (rs : List String)
    (hconds : dictGet kvs "conditions" = some (.list cs))
    (hne : cs ≠ [])
    (hmap : cs.mapM _parse_comparison_condition = .ok rs) :
    (dictGet kvs "operator" = some (.str "AND") →
      _parse_logical_condition (.dict kvs) =
        .ok ("(" ++ String.intercalate " and " rs ++ ")")) ∧
    (dictGet kvs "operator" = some (.str "OR") →
      _parse_logical_condition (.dict kvs) =
        .ok ("(" ++ String.intercalate " or " rs ++ ")")) ∧
    (dictGet kvs "operator" = some (.str "NOT") →
      _parse_logical_condition (.dict kvs) =
        .ok ("!(" ++ String.intercalate " and " rs ++ ")")) ∧
    (∀ s, dictGet kvs "operator" = some (.str s) → s ≠ "AND" → s ≠ "OR" → s ≠ "NOT" →
      _parse_logical_condition (.dict kvs) =
        .error (.filter ("Unknown logical operator \x27" ++ s ++ "\x27"))) ∧
    rs.length = cs.length ∧
    (∀ kvs2 : List (String × PyVal), dictGet kvs2 "field" = Option.none →
      _parse_comparison_condition (.dict kvs2) = _parse_logical_condition (.dict kvs2)) := by
  refine ⟨?_, ?_, ?_, ?_, mapM_ok_length hmap, ?_⟩
  · intro hop
    rw [parse_logical_dict kvs _ cs rs hop hconds hne hmap]
    rfl
  · intro hop
    rw [parse_logical_dict kvs _ cs rs hop hconds hne hmap]
    rfl
  · intro hop
    rw [parse_logical_dict kvs _ cs rs hop hconds hne hmap]
    rfl
  · intro s hop hA hO hN
    rw [parse_logical_dict kvs _ cs rs hop hconds hne hmap]
    simp [hA, hO, hN, PyVal.pyStr]
  · intro kvs2 hf
    rw [_parse_comparison_condition.eq_def]
    simp only [pyIn, hf, Option.isSome]

/-- Closed witness for `logical_join_rule`. -/
theorem logical_join_rule_witness :
    _parse_logical_condition (.dict [("operator", .str "AND"),
      ("conditions", .list [.dict [("field", .str "x"), ("operator", .str "=="),
        ("value", .int 1)]])]) =
      .ok ("(" ++ String.intercalate " and " ["x = 1"] ++ ")") := by
  have h1 : _parse_comparison_condition (.dict [("field", .str "x"),
      ("operator", .str "=="), ("value", .int 1)]) = .ok "x = 1" := by
    rw [← (fuel_adequate 10 _).2 (by decide)]
    decide
  exact (logical_join_rule
    [("operator", .str "AND"), ("conditions", .list [.dict [("field", .str "x"),
      ("operator", .str "=="), ("value", .int 1)]])]
    [.dict [("field", .str "x"), ("operator", .str "=="), ("value", .int 1)]]
    ["x = 1"] rfl (by simp)
    (by rw [List.mapM_cons, h1]; rfl)).1 rfl

/-- Does a compiler result carry a Python exception (as opposed to a
successful string or a `FilterError`)? -/
def isExc {α : Type} : Except Err α → Bool
  | .error (.exc _) => true
  | _ => false

/-- Fuel-indexed well-shapedness of a filter tree (the fuel only needs to
exceed the nesting depth): every node is a dict; a comparison node (a dict
with a `field` key) carries a string field value and an operator value that
is not a list or dict (those are unhashable and would raise `TypeError` in
`operator not in COMPARISON_OPERATORS`); a logical node's `conditions`
value, when present, is a list of well-shaped nodes. -/
def wfNodeF : Nat → PyVal → Bool
  | 0, _ => false
  | n + 1, v =>
    match v with
    | .dict kvs =>
      match dictGet kvs "field" with
      | some fv =>
        (match fv with | .str _ => true | _ => false) &&
        (match dictGet kvs "operator" with
         | some (.list _) => false
         | some (.dict _) => false
         | _ => true)
      | Option.none =>
        match dictGet kvs "conditions" with
        | some (.list cs) => cs.all (wfNodeF n)
        | some _ => false
        | Option.none => true
    | _ => false

/-- Well-shaped filter trees: `wfNodeF` with always-sufficient fuel. -/
def wfNode (v : PyVal) : Bool := wfNodeF (v.depth + 1) v

theorem isExc_map {α β : Type} (g : α → β) (r : Except Err α) :
    isExc (r.map g) = isExc r := by
  cases r with
  | ok x => rfl
  | error e => cases e <;> rfl

theorem format_value_no_exc (v : PyVal) : isExc (_format_value v) = false := by
  cases v with
  | float f =>
    by_cases h : (f.isInf || f.isNan) = true
    · simp [_format_value, h, isExc]
    · simp only [_format_value, h, Bool.false_eq_true, if_false]
      rfl
  | none => rfl
  | bool b => rfl
  | int i => rfl
  | str s => rfl
  | list xs => rfl
  | dict kvs => rfl

theorem isExc_ok {α : Type} (x : α) : isExc (Except.ok x : Except Err α) = false := rfl

theorem isExc_filter {α : Type} (m : String) :
    isExc (Except.error (Err.filter m) : Except Err α) = false := rfl

theorem equal_no_exc (field : String) (v : PyVal) : isExc (_equal field v) = false := by
  cases v <;> simp [_equal, isExc_map, isExc_ok, isExc_filter, format_value_no_exc]

theorem not_equal_no_exc (field : String) (v : PyVal) : isExc (_not_equal field v) = false := by
  cases v <;> simp [_not_equal, isExc_map, isExc_ok, isExc_filter, format_value_no_exc]

theorem isExc_bind_validate (v : PyVal) (k : Unit → Except Err String)
    (hk : isExc (k ()) = false) :
    isExc (_validate_range_value v >>= k) = false := by
  cases v with
  | none => rfl
  | list xs => rfl
  | bool b => exact hk
  | int i => exact hk
  | float f => exact hk
  | str s => exact hk
  | dict kvs => exact hk

theorem isExc_bind_format (v : PyVal) (k : String → Except Err String)
    (hk : ∀ r, isExc (k r) = false) :
    isExc (_format_value v >>= k) = false := by
  cases hf : _format_value v with
  | ok r => rw [hf] at *; exact hk r
  | error e =>
    have := format_value_no_exc v
    rw [hf] at this
    cases e with
    | exc p => simp [isExc] at this
    | filter m => rfl

theorem greater_than_no_exc (field : String) (v : PyVal) :
    isExc (_greater_than field v) = false := by
  unfold _greater_than
  exact isExc_bind_validate v _ (isExc_bind_format v _ fun r => rfl)

theorem greater_than_equal_no_exc (field : String) (v : PyVal) :
    isExc (_greater_than_equal field v) = false := by
  unfold _greater_than_equal
  exact isExc_bind_validate v _ (isExc_bind_format v _ fun r => rfl)

theorem less_than_no_exc (field : String) (v : PyVal) :
    isExc (_less_than field v) = false := by
  unfold _less_than
  exact isExc_bind_validate v _ (isExc_bind_format v _ fun r => rfl)

theorem less_than_equal_no_exc (field : String) (v : PyVal) :
    isExc (_less_than_equal field v) = false := by
  unfold _less_than_equal
  exact isExc_bind_validate v _ (isExc_bind_format v _ fun r => rfl)

theorem in_element_no_exc (v : PyVal) : isExc (_in_element v) = false := by
  cases v <;> rfl

theorem mapM_no_exc {α : Type} {f : PyVal → Except Err α}
    (hf : ∀ x, isExc (f x) = false) :
    ∀ l : List PyVal, isExc (l.mapM f) = false := by
  intro l
  induction l with
  | nil => rfl
  | cons x xs ih =>
    rw [List.mapM_cons]
    cases hx : f x with
    | error e =>
      have := hf x
      rw [hx] at this
      cases e with
      | exc p => simp [isExc] at this
      | filter m => rfl
    | ok r =>
      show isExc (xs.mapM f >>= fun rs => pure (r :: rs)) = false
      cases hxs : xs.mapM f with
      | error e =>
        rw [hxs] at ih
        cases e with
        | exc p => simp [isExc] at ih
        | filter m => rfl
      | ok rs => rfl

theorem in_no_exc (field : String) (v : PyVal) : isExc (_in field v) = false := by
  cases v with
  | list vs =>
    by_cases hvs : vs.isEmpty
    · simp [_in, hvs, isExc_filter]
    · simp only [_in, hvs, Bool.false_eq_true, if_false]
      rw [isExc_map]
      exact mapM_no_exc in_element_no_exc vs
  | none => rfl
  | bool b => rfl
  | int i => rfl
  | float f => rfl
  | str s => rfl
  | dict kvs => rfl

theorem not_in_no_exc (field : String) (v : PyVal) : isExc (_not_in field v) = false := by
  cases v with
  | list vs =>
    show isExc ((_in field (.list vs)).map _) = false
    rw [isExc_map]
    exact in_no_exc field _
  | none => rfl
  | bool b => rfl
  | int i => rfl
  | float f => rfl
  | str s => rfl
  | dict kvs => rfl

/-- Every formatter reachable through the `COMPARISON_OPERATORS` table is
free of Python exceptions: it returns a string or raises `FilterError`. -/
theorem lookup_cases (op : String) :
    lookupComparisonOperator op = Option.none ∨
    ∃ g, lookupComparisonOperator op = some g ∧
      ∀ (field : String) (v : PyVal), isExc (g field v) = false := by
  unfold lookupComparisonOperator COMPARISON_OPERATORS
  by_cases h1 : ("==" : String) = op
  · right
    exact ⟨_equal, by rw [List.find?_cons_of_pos _ (by simp [h1])]; rfl, equal_no_exc⟩
  rw [List.find?_cons_of_neg _ (by simp [h1])]
  by_cases h2 : ("!=" : String) = op
  · right
    exact ⟨_not_equal, by rw [List.find?_cons_of_pos _ (by simp [h2])]; rfl, not_equal_no_exc⟩
  rw [List.find?_cons_of_neg _ (by simp [h2])]
  by_cases h3 : (">" : String) = op
  · right
    exact ⟨_greater_than, by rw [List.find?_cons_of_pos _ (by simp [h3])]; rfl,
      greater_than_no_exc⟩
  rw [List.find?_cons_of_neg _ (by simp [h3])]
  by_cases h4 : (">=" : String) = op
  · right
    exact ⟨_greater_than_equal, by rw [List.find?_cons_of_pos _ (by simp [h4])]; rfl,
      greater_than_equal_no_exc⟩
  rw [List.find?_cons_of_neg _ (by simp [h4])]
  by_cases h5 : ("<" : String) = op
  · right
    exact ⟨_less_than, by rw [List.find?_cons_of_pos _ (by simp [h5])]; rfl, less_than_no_exc⟩
  rw [List.find?_cons_of_neg _ (by simp [h5])]
  by_cases h6 : ("<=" : String) = op
  · right
    exact ⟨_less_than_equal, by rw [List.find?_cons_of_pos _ (by simp [h6])]; rfl,
      less_than_equal_no_exc⟩
  rw [List.find?_cons_of_neg _ (by simp [h6])]
  by_cases h7 : ("in" : String) = op
  · right
    exact ⟨_in, by rw [List.find?_cons_of_pos _ (by simp [h7])]; rfl, in_no_exc⟩
  rw [List.find?_cons_of_neg _ (by simp [h7])]
  by_cases h8 : ("not in" : String) = op
  · right
    exact ⟨_not_in, by rw [List.find?_cons_of_pos _ (by simp [h8])]; rfl, not_in_no_exc⟩
  rw [List.find?_cons_of_neg _ (by simp [h8])]
  left
  rfl

theorem mapM_no_exc_mem {α : Type} {f : PyVal → Except Err α} :
    ∀ l : List PyVal, (∀ x ∈ l, isExc (f x) = false) → isExc (l.mapM f) = false := by
  intro l
  induction l with
  | nil => intro h; rfl
  | cons x xs ih =>
    intro h
    rw [List.mapM_cons]
    cases hx : f x with
    | error e =>
      have := h x (List.mem_cons_self x xs)
      rw [hx] at this
      cases e with
      | exc p => simp [isExc] at this
      | filter m => rfl
    | ok r =>
      show isExc (xs.mapM f >>= fun rs => pure (r :: rs)) = false
      have ihx := ih fun a ha => h a (List.mem_cons_of_mem x ha)
      cases hxs : xs.mapM f with
      | error e =>
        rw [hxs] at ihx
        cases e with
        | exc p => simp [isExc] at ihx
        | filter m => rfl
      | ok rs => rfl

/-- A dict without a `field` key is dispatched by
`_parse_comparison_condition` straight to `_parse_logical_condition`. -/
theorem parse_comparison_no_field (kvs : List (String × PyVal))
    (hf : dictGet kvs "field" = Option.none) :
    _parse_comparison_condition (.dict kvs) = _parse_logical_condition (.dict kvs) := by
  rw [_parse_comparison_condition.eq_def]
  simp only [pyIn, hf, Option.isSome]

theorem parse_wf_no_exc : ∀ n (v : PyVal), v.depth < n → wfNodeF n v = true →
    isExc (_parse_comparison_condition v) = false := by
  intro n
  induction n with
  | zero => intro v hd hwf; exact Bool.noConfusion hwf
  | succ n ih =>
    intro v hd hwf
    cases v with
    | none => exact Bool.noConfusion hwf
    | bool b => exact Bool.noConfusion hwf
    | int i => exact Bool.noConfusion hwf
    | float f => exact Bool.noConfusion hwf
    | str s => exact Bool.noConfusion hwf
    | list xs => exact Bool.noConfusion hwf
    | dict kvs =>
      cases hfv : dictGet kvs "field" with
      | some fv =>
        simp only [wfNodeF, hfv] at hwf
        rw [Bool.and_eq_true] at hwf
        obtain ⟨hstr, hopok⟩ := hwf
        cases fv with
        | none => exact Bool.noConfusion hstr
        | bool b => exact Bool.noConfusion hstr
        | int i => exact Bool.noConfusion hstr
        | float f => exact Bool.noConfusion hstr
        | list l => exact Bool.noConfusion hstr
        | dict d => exact Bool.noConfusion hstr
        | str s =>
          rw [_parse_comparison_condition.eq_def]
          simp only [pyIn, pyGet, hfv, Option.isSome_some]
          cases hop : dictGet kvs "operator" with
          | none => rfl
          | some opv =>
            cases hval : dictGet kvs "value" with
            | none => rfl
            | some val =>
              simp only [Option.isSome_some]
              cases opv with
              | list l => rw [hop] at hopok; simp at hopok
              | dict d => rw [hop] at hopok; simp at hopok
              | none => rfl
              | bool b => rfl
              | int i => rfl
              | float f => rfl
              | str opstr =>
                rcases lookup_cases opstr with hl | ⟨g, hl, hg⟩
                · simp only [hl]
                  rfl
                · simp only [hl]
                  exact hg _ _
      | none =>
        rw [parse_comparison_no_field kvs hfv]
        simp only [wfNodeF, hfv] at hwf
        rw [_parse_logical_condition.eq_def]
        simp only [pyIn, pyGet]
        cases hop : dictGet kvs "operator" with
        | none => rfl
        | some opv =>
          simp only [Option.isSome_some]
          cases hconds : dictGet kvs "conditions" with
          | none => rfl
          | some condsVal =>
            rw [hconds] at hwf
            cases condsVal with
            | none => simp at hwf
            | bool b => simp at hwf
            | int i => simp at hwf
            | float f => simp at hwf
            | str s2 => simp at hwf
            | dict d => simp at hwf
            | list cs =>
              simp only [Option.isSome_some] at *
              simp only [List.all_eq_true] at hwf
              cases cs with
              | nil => rfl
              | cons c0 cs0 =>
                simp only [pyTruthy, pyIterate]
                rw [attach_mapM]
                have hchild : ∀ x ∈ c0 :: cs0, isExc (_parse_comparison_condition x) = false := by
                  intro x hx
                  apply ih
                  · have e1 : PyVal.depth (.dict kvs) = 1 + depthDict kvs := rfl
                    have e2 : PyVal.depth (.list (c0 :: cs0)) = 1 + depthList (c0 :: cs0) := rfl
                    have l1 := dictGet_depth_le hconds
                    have l2 := depthList_le_of_mem hx
                    omega
                  · exact hwf x hx
                have hm := mapM_no_exc_mem (c0 :: cs0) hchild
                cases hmm : (c0 :: cs0).mapM _parse_comparison_condition with
                | error e =>
                  rw [hmm] at hm
                  cases e with
                  | exc p => simp [isExc] at hm
                  | filter m => rfl
                | ok rs =>
                  cases opv with
                  | str sop =>
                    by_cases hA : sop = "AND"
                    · subst hA; rfl
                    · by_cases hO : sop = "OR"
                      · subst hO; rfl
                      · by_cases hN : sop = "NOT"
                        · subst hN; rfl
                        · simp [hA, hO, hN, isExc_filter]
                  | none => rfl
                  | bool b => rfl
                  | int i => rfl
                  | float f => rfl
                  | list l => rfl
                  | dict d => rfl

/-- C2 counterexample.  A logical node whose `conditions` list contains the
non-dict child `5` makes compilation raise a Python `TypeError` (from
`"field" in 5`), not a `FilterError`: the claimed single-error-kind contract
does not hold for nested non-structured children. -/
theorem nested_int_child_raises_type_error :
    normalize_filters (.dict [("operator", .str "AND"), ("conditions", .list [.int 5])]) =
      .error (.exc .typeError) := by
  rw [← normalizeRun_eq]
  decide

/-- C2 amended.  On well-shaped trees — every node a dict, field values
strings, `conditions` values lists of well-shaped nodes, operator values of
comparison nodes not lists/dicts — every failure of `normalize_filters` is a
`FilterError` (and the `Except` model makes the failure fail-fast with no
partial output).  Outside that class, Python `TypeError`/`AttributeError`
escapes instead: from `"field" in child` on a non-dict child, from
`.startswith` on a non-string field, from indexing a non-dict, or from an
unhashable operator value. -/
theorem wf_trees_only_filter_error (v : PyVal) (hwf : wfNode v = true) :
    isExc (normalize_filters v) = false := by
  cases v with
  | none => exact Bool.noConfusion hwf
  | bool b => exact Bool.noConfusion hwf
  | int i => exact Bool.noConfusion hwf
  | float f => exact Bool.noConfusion hwf
  | str s => exact Bool.noConfusion hwf
  | list xs => exact Bool.noConfusion hwf
  | dict kvs =>
    rw [normalize_filters]
    split
    · exact parse_wf_no_exc _ _ (Nat.lt_succ_self _) hwf
    · rename_i hnf
      rw [Option.not_isSome_iff_eq_none] at hnf
      rw [← parse_comparison_no_field kvs hnf]
      exact parse_wf_no_exc _ _ (Nat.lt_succ_self _) hwf

/-- Closed witness for `wf_trees_only_filter_error`. -/
theorem wf_trees_only_filter_error_witness :
    isExc (normalize_filters (.dict [("operator", .str "AND"), ("conditions", .list
      [.dict [("field", .str "meta.type"), ("operator", .str "=="),
        ("value", .str "article")],
       .dict [("field", .str "meta.status"), ("operator", .str "bogus"),
        ("value", PyVal.none)]])])) = false :=
  wf_trees_only_filter_error _ (by decide)

/-- C9.  The embedded `normalize_filters` is a pure, deterministic function:
equal inputs give equal results — the same output string or the same error.
The source performs no in-place update of its argument (fields are only read
and locally rebound), which is why it can be modelled as a total function of
the input tree alone; the embedding threads no state. -/
theorem normalize_filters_deterministic (v w : PyVal) (h : v = w) :
    normalize_filters v = normalize_filters w := by
  rw [h]

/-- Closed witness for `normalize_filters_deterministic`. -/
theorem normalize_filters_deterministic_witness :
    normalize_filters (.dict [("field", .str "a"), ("operator", .str "=="),
      ("value", .int 1)]) =
    normalize_filters (.dict [("field", .str "a"), ("operator", .str "=="),
      ("value", .int 1)]) :=
  normalize_filters_deterministic _ _ rfl
